import Mathlib

/-!
Verification of the ReadyTensor repository-assessment pipeline.

This file gives a shallow embedding of the chunked content-scoring pipeline
(src/core/scorer.py, src/core/analyzer.py, src/core/validators.py,
src/llm/client.py, src/llm/parsers.py) and settles the frozen claims about it.

Modelling conventions:
* Python ints are `Int`/`Nat`; Python floats that only ever divide by powers of
  two or compare small integers are modelled by `Rat` (exact for those uses).
* Filesystem access (`os.path.exists`, `os.walk`, line counting) is abstracted
  to function/value parameters holding exactly the data the code reads.
* The external LLM call is abstracted to an attempt-indexed outcome function;
  everything after the call (parsing branch structure, retry loop, score
  aggregation) is translated from the source.
-/

/-! ## Chunker: ContentBasedScorer._chunk_text (src/core/scorer.py lines 104-115)

```
approx_char_limit = int(self.token_limit * 4)
overlap_chars = int(approx_char_limit * 0.1)
chunks = []
start = 0
while start < len(text):
    end = min(start + approx_char_limit, len(text))
    chunks.append(text[start:end])
    start = end - overlap_chars
```

With the default config `token_limit = 8000` (src/utils/config.py), the code
computes `approx_char_limit = 32000` and `overlap_chars = int(32000 * 0.1) = 3200`
(the float product `32000 * 0.1` rounds to exactly `3200.0`).

The loop state is the integer `start`; we embed the sequence of values `start`
takes as `chunkStart`, indexed by iteration count.  The loop runs while
`start < len(text)` and each iteration rewrites `start := min (start + limit) len - overlap`.
-/

/-- The value of the loop variable `start` of `_chunk_text` after `n` iterations
of the `while` loop body, for text length `lenText`, chunk budget `limit`
(`approx_char_limit`) and overlap `overlap` (`overlap_chars`).  Python ints are
unbounded and `start` can go negative, hence `Int`. -/
def chunkStart (lenText limit overlap : Int) : Nat → Int
  | 0 => 0
  | n + 1 => min (chunkStart lenText limit overlap n + limit) lenText - overlap

/-- Claim C1: the spec says the chunk walk is clamped so `start` strictly
increases and terminates once `start ≥ len(text)`.  The code has no such
clamp: for every non-empty text and every positive overlap (in particular the
default configuration `limit = 32000`, `overlap = 3200`), the guard
`start < len(text)` holds after every iteration of the loop body, so the
`while` loop of `_chunk_text` never exits — the chunker does not terminate. -/
theorem chunk_text_loop_never_exits (lenText limit overlap : Int)
    (hlen : 0 < lenText) (hov : 0 < overlap) :
    ∀ n, chunkStart lenText limit overlap n < lenText := by
  intro n
  induction n with
  | zero => simpa [chunkStart] using hlen
  | succ n ih =>
    have hmin : min (chunkStart lenText limit overlap n + limit) lenText ≤ lenText :=
      min_le_right _ _
    have : min (chunkStart lenText limit overlap n + limit) lenText - overlap ≤
        lenText - overlap := by omega
    have hlt : lenText - overlap < lenText := by omega
    calc chunkStart lenText limit overlap (n + 1)
        = min (chunkStart lenText limit overlap n + limit) lenText - overlap := rfl
      _ ≤ lenText - overlap := this
      _ < lenText := hlt

/-- Witness for C1 at a concrete input: a 5-character text under the default
configuration (`approx_char_limit = 32000`, `overlap_chars = 3200`) still
satisfies the loop guard after 4 iterations. -/
theorem chunk_text_loop_never_exits_witness :
    chunkStart 5 32000 3200 4 < 5 :=
  chunk_text_loop_never_exits 5 32000 3200 (by decide) (by decide) 4

/-! ## Structured responses: CriterionResponse (src/llm/parsers.py lines 9-15)

```
class CriterionResponse(BaseModel):
    criterion_id: str
    score: int = Field(ge=0, le=100)
    explanation: str
    evidence: Optional[List[str]] = None
    suggestions: Optional[List[str]] = None
```
-/

/-- A pydantic-validated `CriterionResponse` record. -/
structure CriterionResponse where
  criterion_id : String
  score : Int
  explanation : String
  evidence : Option (List String) := none
  suggestions : Option (List String) := none
deriving DecidableEq

/-- Pydantic construction `CriterionResponse(**result_json)`: succeeds exactly
when the score satisfies the declared bounds `ge=0, le=100`; a violation raises
a `ValidationError`, modelled as `none`. -/
def validateCriterionResponse (criterion_id : String) (score : Int)
    (explanation : String) (evidence suggestions : Option (List String)) :
    Option CriterionResponse :=
  if 0 ≤ score ∧ score ≤ 100 then
    some ⟨criterion_id, score, explanation, evidence, suggestions⟩
  else
    none

/-! ## Oracle client: LLMClient.invoke_structured (src/llm/client.py lines 54-88)

```
max_retries = 3
for attempt in range(max_retries):
    try:
        response = self.client.chat.completions.create(...)
        content = response.choices[0].message.content
        if not content:
            raise ValueError("Empty response from API")
        result_json = json.loads(content)
        validated = response_model(**result_json)
        return validated.model_dump()
    except json.JSONDecodeError as e:
        if attempt == max_retries - 1:
            raise ValueError(f"Failed to parse JSON response after {max_retries} attempts")
    except Exception as e:
        if attempt == max_retries - 1:
            raise e
        time.sleep(2 ** attempt)  # Exponential backoff
```

The underlying invocation (API call + parse + validate) is abstracted as an
attempt-indexed outcome.  `jsonDecodeError` is the `json.JSONDecodeError`
branch (invalid JSON text); every other failure — the API call raising, an
empty response (`ValueError`), or pydantic schema validation raising — lands in
the generic `except Exception` branch, modelled as `exception`.  Note that only
the `exception` branch sleeps; the `jsonDecodeError` branch retries
immediately. -/

/-- Outcome of one underlying oracle invocation inside `invoke_structured`. -/
inductive CallOutcome where
  | success (resp : CriterionResponse)
  | jsonDecodeError (msg : String)
  | exception (msg : String)
deriving DecidableEq

/-- Result of `invoke_structured`: the returned/raised value, the number of
attempts performed, and the list of back-off sleep durations (in seconds, in
order).  `Except.ok none` is Python's implicit `return None` should the `for`
loop fall through (unreachable for `max_retries = 3`). -/
structure InvokeResult where
  result : Except String (Option CriterionResponse)
  attempts : Nat
  sleeps : List Nat

/-- The body of `for attempt in range(max_retries)` in `invoke_structured`,
over the list of remaining attempt indices, carrying the attempts performed so
far and the sleeps taken so far. -/
def invokeGo (oracle : Nat → CallOutcome) :
    List Nat → Nat → List Nat → InvokeResult
  | [], done, sleeps => ⟨.ok none, done, sleeps⟩
  | attempt :: rest, done, sleeps =>
    match oracle attempt with
    | .success r => ⟨.ok (some r), done + 1, sleeps⟩
    | .jsonDecodeError _ =>
      if attempt = 3 - 1 then
        ⟨.error "Failed to parse JSON response after 3 attempts", done + 1, sleeps⟩
      else
        invokeGo oracle rest (done + 1) sleeps
    | .exception msg =>
      if attempt = 3 - 1 then
        ⟨.error msg, done + 1, sleeps⟩
      else
        invokeGo oracle rest (done + 1) (sleeps ++ [2 ^ attempt])

/-- `LLMClient.invoke_structured` with `max_retries = 3`. -/
def invoke_structured (oracle : Nat → CallOutcome) : InvokeResult :=
  invokeGo oracle (List.range 3) 0 []

/-- Claim C4 as stated is false: when every underlying invocation returns
invalid structured data of the `json.JSONDecodeError` kind, `invoke_structured`
performs its 3 attempts and raises, but takes NO back-off sleep between
consecutive attempts — the claimed waits `base * 2 ^ attempt` (i.e. sleeps
`[1, 2]`) do not happen, because the `json.JSONDecodeError` branch has no
`time.sleep` call. -/
theorem invoke_structured_json_failure_no_backoff :
    (invoke_structured (fun _ => .jsonDecodeError "Expecting value")).attempts = 3 ∧
    (invoke_structured (fun _ => .jsonDecodeError "Expecting value")).result =
      .error "Failed to parse JSON response after 3 attempts" ∧
    (invoke_structured (fun _ => .jsonDecodeError "Expecting value")).sleeps = [] ∧
    (invoke_structured (fun _ => .jsonDecodeError "Expecting value")).sleeps ≠ [1, 2] := by
  refine ⟨rfl, rfl, rfl, ?_⟩
  decide


/-- Claim C4 amended: on any persistently failing oracle, `invoke_structured`
performs exactly 3 attempts and surfaces the failure as a raised error (never a
silently returned default); between consecutive attempts it waits
`2 ^ attempt` seconds when the invocation failed by raising (sleeps `[1, 2]`),
but retries immediately with no wait when the response was invalid JSON. -/
theorem invoke_structured_retry_exhaustion (oracle : Nat → CallOutcome)
    (hfail : ∀ n r, oracle n ≠ .success r) :
    (invoke_structured oracle).attempts = 3 ∧
    (∃ e, (invoke_structured oracle).result = .error e) ∧
    ((∀ n, ∃ m, oracle n = .exception m) →
      (invoke_structured oracle).sleeps = [1, 2]) ∧
    ((∀ n, ∃ m, oracle n = .jsonDecodeError m) →
      (invoke_structured oracle).sleeps = []) := by
  have hrange : List.range 3 = [0, 1, 2] := by decide
  cases h0 : oracle 0 with
  | success r => exact absurd h0 (hfail 0 r)
  | jsonDecodeError m0 =>
    cases h1 : oracle 1 with
    | success r => exact absurd h1 (hfail 1 r)
    | jsonDecodeError m1 =>
      cases h2 : oracle 2 with
      | success r => exact absurd h2 (hfail 2 r)
      | jsonDecodeError m2 =>
        have hres : invoke_structured oracle =
            ⟨.error "Failed to parse JSON response after 3 attempts", 3, []⟩ := by
          simp [invoke_structured, hrange, invokeGo, h0, h1, h2]
        exact ⟨by rw [hres], ⟨_, by rw [hres]⟩,
          fun hexc => absurd (hexc 0) (by rw [h0]; simp),
          fun hjs => by rw [hres]⟩
      | exception m2 =>
        have hres : invoke_structured oracle = ⟨.error m2, 3, []⟩ := by
          simp [invoke_structured, hrange, invokeGo, h0, h1, h2]
        exact ⟨by rw [hres], ⟨_, by rw [hres]⟩,
          fun hexc => absurd (hexc 0) (by rw [h0]; simp),
          fun hjs => absurd (hjs 2) (by rw [h2]; simp)⟩
    | exception m1 =>
      cases h2 : oracle 2 with
      | success r => exact absurd h2 (hfail 2 r)
      | jsonDecodeError m2 =>
        have hres : invoke_structured oracle =
            ⟨.error "Failed to parse JSON response after 3 attempts", 3, [2]⟩ := by
          simp [invoke_structured, hrange, invokeGo, h0, h1, h2]
        exact ⟨by rw [hres], ⟨_, by rw [hres]⟩,
          fun hexc => absurd (hexc 0) (by rw [h0]; simp),
          fun hjs => absurd (hjs 1) (by rw [h1]; simp)⟩
      | exception m2 =>
        have hres : invoke_structured oracle = ⟨.error m2, 3, [2]⟩ := by
          simp [invoke_structured, hrange, invokeGo, h0, h1, h2]
        exact ⟨by rw [hres], ⟨_, by rw [hres]⟩,
          fun hexc => absurd (hexc 0) (by rw [h0]; simp),
          fun hjs => absurd (hjs 1) (by rw [h1]; simp)⟩
  | exception m0 =>
    cases h1 : oracle 1 with
    | success r => exact absurd h1 (hfail 1 r)
    | jsonDecodeError m1 =>
      cases h2 : oracle 2 with
      | success r => exact absurd h2 (hfail 2 r)
      | jsonDecodeError m2 =>
        have hres : invoke_structured oracle =
            ⟨.error "Failed to parse JSON response after 3 attempts", 3, [1]⟩ := by
          simp [invoke_structured, hrange, invokeGo, h0, h1, h2]
        exact ⟨by rw [hres], ⟨_, by rw [hres]⟩,
          fun hexc => absurd (hexc 1) (by rw [h1]; simp),
          fun hjs => absurd (hjs 0) (by rw [h0]; simp)⟩
      | exception m2 =>
        have hres : invoke_structured oracle = ⟨.error m2, 3, [1]⟩ := by
          simp [invoke_structured, hrange, invokeGo, h0, h1, h2]
        exact ⟨by rw [hres], ⟨_, by rw [hres]⟩,
          fun hexc => absurd (hexc 1) (by rw [h1]; simp),
          fun hjs => absurd (hjs 0) (by rw [h0]; simp)⟩
    | exception m1 =>
      cases h2 : oracle 2 with
      | success r => exact absurd h2 (hfail 2 r)
      | jsonDecodeError m2 =>
        have hres : invoke_structured oracle =
            ⟨.error "Failed to parse JSON response after 3 attempts", 3, [1, 2]⟩ := by
          simp [invoke_structured, hrange, invokeGo, h0, h1, h2]
        exact ⟨by rw [hres], ⟨_, by rw [hres]⟩,
          fun hexc => absurd (hexc 2) (by rw [h2]; simp),
          fun hjs => absurd (hjs 0) (by rw [h0]; simp)⟩
      | exception m2 =>
        have hres : invoke_structured oracle = ⟨.error m2, 3, [1, 2]⟩ := by
          simp [invoke_structured, hrange, invokeGo, h0, h1, h2]
        exact ⟨by rw [hres], ⟨_, by rw [hres]⟩,
          fun hexc => by rw [hres],
          fun hjs => absurd (hjs 0) (by rw [h0]; simp)⟩

/-- Witness for the amended C4 at a concrete persistently-raising oracle:
3 attempts, a raised error, and back-off sleeps of 1 and 2 seconds. -/
theorem invoke_structured_retry_exhaustion_witness :
    (invoke_structured (fun _ => .exception "Connection error")).attempts = 3 ∧
    (∃ e, (invoke_structured (fun _ => .exception "Connection error")).result = .error e) ∧
    (invoke_structured (fun _ => .exception "Connection error")).sleeps = [1, 2] := by
  have h := invoke_structured_retry_exhaustion (fun _ => .exception "Connection error")
    (fun n r h => by cases h)
  exact ⟨h.1, h.2.1, h.2.2.1 (fun n => ⟨"Connection error", rfl⟩)⟩

/-! ## Unit assessor: ContentBasedScorer._assess_file (src/core/scorer.py lines 56-86)

```
content = self._load_file_content(file_path)
if not content.strip():
    return {"file_path": file_path, "score": 0, "explanation": "Empty file"}
chunks = self._chunk_text(content)
chunk_results = []
for chunk in chunks:
    prompt = self._create_assessment_prompt(chunk, file_path)
    response = self.llm_client.invoke_structured(prompt, CriterionResponse)
    chunk_results.append(response)
scores = [r.get("score", 0) for r in chunk_results]
avg_score = sum(scores) / len(scores) if scores else 0
explanations = sorted(
    (r.get("explanation", "") for r in chunk_results),
    key=len, reverse=True
)[:3]
explanation = "\n\n".join(explanations)
return {"file_path": file_path, "score": avg_score, "explanation": explanation}
```
-/

/-- ASCII whitespace stripped by Python `str.strip()` (space, tab, newline,
carriage return, vertical tab, form feed; the Unicode extras are irrelevant to
the texts considered here). -/
def isPySpace (c : Char) : Bool :=
  c == ' ' || c == '\t' || c == '\n' || c == '\r' || c == '\x0b' || c == '\x0c'

/-- Python `content.strip()`: remove leading and trailing whitespace.  The
guard `not content.strip()` is true exactly when this is the empty string. -/
def pyStrip (s : String) : String :=
  String.mk (((s.data.dropWhile isPySpace).reverse.dropWhile isPySpace).reverse)

/-- A Python result dict as produced by the scoring and aggregation paths; each
field is a key that may be present (`none` = key absent).  The heterogeneous
`evidence` value of the logic checks is kept as a string rendering; no claim
depends on it. -/
structure ResultDict where
  score : Option Rat := none
  explanation : Option String := none
  error : Option String := none
  file_path : Option String := none
  evidence : Option String := none
deriving DecidableEq

/-- The failure placeholder `{"score": 0, "error": str(e)}` built at the unit
boundary (src/core/scorer.py line 39) and at the logic-check boundary
(src/core/validators.py line 42). -/
def errorPlaceholder (e : String) : ResultDict :=
  { score := some 0, error := some e }

/-- One insertion step of the stable descending-by-length arrangement: place
`a` before the first element that is not longer than it, so that an earlier
element precedes equally long later ones. -/
def insertByLenDesc (a : String) : List String → List String
  | [] => [a]
  | b :: l => if b.length ≤ a.length then a :: b :: l else b :: insertByLenDesc a l

/-- `sorted(explanations, key=len, reverse=True)` (src/core/scorer.py lines
76-79).  Python's sort is documented stable, and `reverse=True` keeps equal
elements in original order, so the result is the unique stable
descending-by-length arrangement; this insertion sort computes exactly that
arrangement. -/
def sortByLenDesc : List String → List String
  | [] => []
  | a :: l => insertByLenDesc a (sortByLenDesc l)

/-- Explanation aggregation of `_assess_file` (src/core/scorer.py lines
75-80): the three longest chunk explanations in stable descending-length
order, joined with a blank line. -/
def unitExplanation (rs : List CriterionResponse) : String :=
  String.intercalate "\n\n" ((sortByLenDesc (rs.map CriterionResponse.explanation)).take 3)

/-- The per-chunk loop of `_assess_file` (src/core/scorer.py lines 66-69):
one `invoke_structured` call per chunk, in order.  The loop has no per-chunk
exception handler, so a call that raises propagates immediately.  `oracle i`
is the outcome of the call for the i-th chunk (`Except.error` = the call
raised after retry exhaustion).  The second component counts oracle calls
made. -/
def runChunks (oracle : Nat → Except String CriterionResponse) :
    List String → Nat → Except String (List CriterionResponse) × Nat
  | [], _ => (.ok [], 0)
  | _ :: rest, i =>
    match oracle i with
    | .error e => (.error e, 1)
    | .ok r =>
      match runChunks oracle rest (i + 1) with
      | (.ok rs, c) => (.ok (r :: rs), c + 1)
      | (.error e, c) => (.error e, c + 1)

/-- `_assess_file` (src/core/scorer.py lines 56-86) on a document whose loaded
content is `content`.  The chunk list is supplied by `chunker`: the
repository's own `_chunk_text` never returns on non-empty input
(`chunk_text_loop_never_exits`), so claims about this function are settled
relative to the chunk sequence the loop would consume.  Returns the result or
the propagated exception, plus the number of oracle calls made. -/
def assessFile (chunker : String → List String)
    (oracle : Nat → Except String CriterionResponse)
    (file_path content : String) :
    Except String ResultDict × Nat :=
  if pyStrip content = "" then
    (.ok { file_path := some file_path, score := some 0,
           explanation := some "Empty file" }, 0)
  else
    match runChunks oracle (chunker content) 0 with
    | (.error e, c) => (.error e, c)
    | (.ok rs, c) =>
      let scores : List Rat := rs.map (fun r => (r.score : Rat))
      let avg_score : Rat := if scores = [] then 0 else scores.sum / scores.length
      (.ok { file_path := some file_path, score := some avg_score,
             explanation := some (unitExplanation rs) }, c)

/-- The per-file wrapper of `assess_repository` (src/core/scorer.py lines
33-39): a file whose assessment raised becomes the
`{"score": 0, "error": str(e)}` placeholder in the category result. -/
def assessFileEntry (chunker : String → List String)
    (oracle : Nat → Except String CriterionResponse)
    (file_path content : String) : ResultDict :=
  match (assessFile chunker oracle file_path content).1 with
  | .ok r => r
  | .error e => errorPlaceholder e

/-- Claim C9: a document whose loaded content is empty or whitespace-only
short-circuits before chunking: `_assess_file` returns the normal result
`{"file_path": ..., "score": 0, "explanation": "Empty file"}` — not an error
placeholder — and performs zero oracle calls. -/
theorem assess_file_empty_short_circuit (chunker : String → List String)
    (oracle : Nat → Except String CriterionResponse) (fp content : String)
    (h : pyStrip content = "") :
    assessFile chunker oracle fp content =
      (.ok { file_path := some fp, score := some 0,
             explanation := some "Empty file" }, 0) := by
  simp [assessFile, h]

/-- Witness for C9 on a concrete whitespace-only document, with an oracle that
would fail if it were ever consulted. -/
theorem assess_file_empty_short_circuit_witness :
    assessFile (fun s => [s]) (fun _ => .error "no oracle available")
        "notes.txt" " \n\t " =
      (.ok { file_path := some "notes.txt", score := some 0,
             explanation := some "Empty file" }, 0) :=
  assess_file_empty_short_circuit _ _ _ _ (by decide)

/-- If the oracle calls for the first `j` chunks succeed and the call for
chunk `j` raises, the per-chunk loop propagates that exception. -/
theorem runChunks_error_of_first_failure
    (oracle : Nat → Except String CriterionResponse) (e : String) :
    ∀ (chunks : List String) (i j : Nat), j < chunks.length →
      (∀ k, k < j → ∃ r, oracle (i + k) = .ok r) →
      oracle (i + j) = .error e →
      (runChunks oracle chunks i).1 = .error e := by
  intro chunks
  induction chunks with
  | nil => intro i j hj _ _; simp at hj
  | cons c rest ih =>
    intro i j hj hok herr
    cases j with
    | zero =>
      rw [Nat.add_zero] at herr
      simp [runChunks, herr]
    | succ j =>
      rcases hok 0 (Nat.succ_pos j) with ⟨r, hr⟩
      rw [Nat.add_zero] at hr
      have hrec : (runChunks oracle rest (i + 1)).1 = .error e := by
        apply ih (i + 1) j (by simpa using hj)
        · intro k hk
          rcases hok (k + 1) (by omega) with ⟨r2, hr2⟩
          exact ⟨r2, by rw [show i + 1 + k = i + (k + 1) by omega]; exact hr2⟩
        · rw [show i + 1 + j = i + (j + 1) by omega]; exact herr
      rcases h2 : runChunks oracle rest (i + 1) with ⟨res, cnt⟩
      rw [h2] at hrec
      simp only at hrec
      subst hrec
      simp [runChunks, hr, h2]

/-- Claim C2 is false on the code: `_assess_file` has no per-chunk exception
handler, so with 2 chunks where chunk 0 scores 80 and chunk 1's oracle call
fails after retry exhaustion, the whole document becomes the
`{"score": 0, "error": ...}` placeholder — its score is 0, not the mean (80)
of the successful chunk. -/
theorem assess_file_partial_failure_scores_zero :
    assessFileEntry (fun _ => ["chunk one", "chunk two"])
        (fun i => if i = 0 then .ok ⟨"content_quality", 80, "looks good", none, none⟩
                  else .error "Connection error")
        "model.py" "def predict(x):\n    return x\n" =
      { score := some 0, error := some "Connection error" } ∧
    ({ score := some 0, error := some "Connection error" } : ResultDict).score ≠
      some 80 := by
  exact ⟨by decide, by decide⟩

/-- Claim C2 amended: if any chunk's oracle call fails after retry exhaustion
(here: the first failing chunk `j`, all earlier chunks succeeding), the
exception propagates out of `_assess_file`; the document's entry becomes the
error placeholder with score 0 and the failure reason — the remaining chunks'
scores are discarded, and no mean over the successful chunks is computed. -/
theorem assess_file_chunk_failure_aborts_document
    (chunker : String → List String)
    (oracle : Nat → Except String CriterionResponse)
    (fp content : String) (j : Nat) (e : String)
    (hne : ¬ pyStrip content = "")
    (hj : j < (chunker content).length)
    (hok : ∀ k, k < j → ∃ r, oracle k = .ok r)
    (herr : oracle j = .error e) :
    assessFileEntry chunker oracle fp content = errorPlaceholder e := by
  have h1 : (runChunks oracle (chunker content) 0).1 = .error e := by
    apply runChunks_error_of_first_failure oracle e (chunker content) 0 j hj
    · intro k hk; simpa using hok k hk
    · simpa using herr
  rcases h2 : runChunks oracle (chunker content) 0 with ⟨res, cnt⟩
  rw [h2] at h1
  simp only at h1
  subst h1
  simp [assessFileEntry, assessFile, hne, h2]

/-- Witness for the amended C2: two chunks, chunk 0 succeeds with score 80,
chunk 1 raises; the document entry is the zero-score placeholder. -/
theorem assess_file_chunk_failure_aborts_document_witness :
    assessFileEntry (fun _ => ["alpha", "beta"])
        (fun i => if i = 0 then .ok ⟨"content_quality", 80, "fine", none, none⟩
                  else .error "Rate limit exceeded")
        "train.py" "import os\n" =
      errorPlaceholder "Rate limit exceeded" :=
  assess_file_chunk_failure_aborts_document _ _ _ _ 1 _
    (by decide) (by decide)
    (fun k hk => ⟨⟨"content_quality", 80, "fine", none, none⟩, by
      interval_cases k
      · rfl⟩)
    rfl

/-! ## Claim C8: the "three longest explanations" selection rule -/

/-- Strict priority order of the specification's selection rule on
index-tagged explanations: longer first, ties broken by smaller original chunk
index. -/
def specBefore (p q : Nat × String) : Prop :=
  q.2.length < p.2.length ∨ (p.2.length = q.2.length ∧ p.1 ≤ q.1)

instance (p q : Nat × String) : Decidable (specBefore p q) := by
  unfold specBefore; infer_instance

/-- Insertion step for sorting index-tagged explanations by `specBefore`. -/
def insertPair (p : Nat × String) : List (Nat × String) → List (Nat × String)
  | [] => [p]
  | q :: l => if specBefore p q then p :: q :: l else q :: insertPair p l

/-- Sort index-tagged explanations by (length descending, original index
ascending). -/
def sortPairs : List (Nat × String) → List (Nat × String)
  | [] => []
  | p :: l => insertPair p (sortPairs l)

/-- Tag each element with its original position, starting at `n`. -/
def enumFrom (n : Nat) : List String → List (Nat × String)
  | [] => []
  | a :: l => (n, a) :: enumFrom (n + 1) l

/-- Modelled from the spec's words: "the three longest chunk explanations,
ties broken by original chunk order, joined with a blank line" — tag the
explanations with their chunk indices, sort by (length descending, index
ascending), take three, join. -/
def specExplanation (xs : List String) : String :=
  String.intercalate "\n\n" (((sortPairs (enumFrom 0 xs)).map Prod.snd).take 3)

theorem mem_insertPair {p q : Nat × String} {l : List (Nat × String)}
    (h : q ∈ insertPair p l) : q = p ∨ q ∈ l := by
  induction l with
  | nil => simpa [insertPair] using h
  | cons b t ih =>
    rw [insertPair] at h
    by_cases hc : specBefore p b
    · rw [if_pos hc] at h
      simpa using h
    · rw [if_neg hc] at h
      rcases List.mem_cons.1 h with h1 | h2
      · exact Or.inr (by simp [h1])
      · rcases ih h2 with h3 | h4
        · exact Or.inl h3
        · exact Or.inr (List.mem_cons_of_mem _ h4)

theorem mem_sortPairs {q : Nat × String} {l : List (Nat × String)}
    (h : q ∈ sortPairs l) : q ∈ l := by
  induction l with
  | nil => simp [sortPairs] at h
  | cons p t ih =>
    rw [sortPairs] at h
    rcases mem_insertPair h with h1 | h2
    · simp [h1]
    · exact List.mem_cons_of_mem _ (ih h2)

/-- Key stability bridge: inserting an element whose original index is smaller
than every index in the list is governed purely by the length comparison
`q.length ≤ p.length` — exactly the comparison of the untagged stable sort. -/
theorem map_snd_insertPair (p : Nat × String) (l : List (Nat × String))
    (hlt : ∀ q ∈ l, p.1 < q.1) :
    (insertPair p l).map Prod.snd = insertByLenDesc p.2 (l.map Prod.snd) := by
  induction l with
  | nil => simp [insertPair, insertByLenDesc]
  | cons q t ih =>
    have hq : p.1 < q.1 := hlt q (by simp)
    by_cases hlen : q.2.length ≤ p.2.length
    · have hb : specBefore p q := by unfold specBefore; omega
      simp only [insertPair, if_pos hb, List.map_cons]
      rw [insertByLenDesc, if_pos hlen]
    · have hb : ¬ specBefore p q := by unfold specBefore; omega
      have ht := ih (fun r hr => hlt r (List.mem_cons_of_mem _ hr))
      simp only [insertPair, if_neg hb, List.map_cons]
      rw [insertByLenDesc, if_neg hlen, ht]

theorem map_snd_sortPairs (l : List (Nat × String))
    (hpw : List.Pairwise (fun a b : Nat × String => a.1 < b.1) l) :
    (sortPairs l).map Prod.snd = sortByLenDesc (l.map Prod.snd) := by
  induction l with
  | nil => simp [sortPairs, sortByLenDesc]
  | cons p t ih =>
    rcases List.pairwise_cons.1 hpw with ⟨hp, ht⟩
    rw [sortPairs, map_snd_insertPair p (sortPairs t)
        (fun q hq => hp q (mem_sortPairs hq)),
      ih ht]
    simp [sortByLenDesc]

theorem enumFrom_map_snd (xs : List String) :
    ∀ n, (enumFrom n xs).map Prod.snd = xs := by
  induction xs with
  | nil => intro n; simp [enumFrom]
  | cons a t ih => intro n; simp [enumFrom, ih]

theorem enumFrom_fst_ge (xs : List String) :
    ∀ n, ∀ q ∈ enumFrom n xs, n ≤ q.1 := by
  induction xs with
  | nil => intro n q hq; simp [enumFrom] at hq
  | cons a t ih =>
    intro n q hq
    rw [enumFrom] at hq
    rcases List.mem_cons.1 hq with h1 | h2
    · simp [h1]
    · exact Nat.le_of_succ_le (ih (n + 1) q h2)

theorem enumFrom_pairwise (xs : List String) :
    ∀ n, List.Pairwise (fun a b : Nat × String => a.1 < b.1) (enumFrom n xs) := by
  induction xs with
  | nil => intro n; simp [enumFrom]
  | cons a t ih =>
    intro n
    rw [enumFrom]
    refine List.pairwise_cons.2 ⟨?_, ih (n + 1)⟩
    intro q hq
    have := enumFrom_fst_ge t (n + 1) q hq
    simpa using Nat.lt_of_succ_le this

/-- Claim C8: for every list of per-chunk results in original chunk order, the
unit explanation computed by `_assess_file` equals the blank-line join of the
three longest chunk explanations with ties broken by original chunk order.
Both sides are pure functions of the result list, so identical inputs always
yield the identical explanation string. -/
theorem unit_explanation_three_longest (rs : List CriterionResponse) :
    unitExplanation rs = specExplanation (rs.map CriterionResponse.explanation) := by
  unfold unitExplanation specExplanation
  rw [map_snd_sortPairs _ (enumFrom_pairwise _ 0), enumFrom_map_snd]

/-! ## Logic checks: LogicBasedValidator (src/core/validators.py lines 46-144)

The filesystem is abstracted to exactly what each check reads:
`pathExists f` is `os.path.exists(os.path.join(repo_path, f))`; `lineCounts`
is the list of readable line counts of the `.py` files found by `os.walk`;
`total_size` is the byte sum computed by `repository_size`.  Explanation
strings that interpolate a float (`f"{size_mb:.1f} MB"`) and the heterogeneous
evidence of `script_length` are elided; no claim depends on them. -/

/-- Candidate README file names (src/core/validators.py line 49). -/
def readme_files : List String := ["README.md", "README.rst", "README.txt", "README"]

/-- Candidate license file names (src/core/validators.py line 68). -/
def license_files : List String := ["LICENSE", "LICENSE.txt", "LICENSE.md", "LICENCE"]

/-- `readme_presence`: return 100 with the first candidate found, else 0. -/
def readme_presence (pathExists : String → Bool) : ResultDict :=
  match readme_files.find? pathExists with
  | some f => { score := some 100, explanation := some ("Found " ++ f),
                evidence := some f }
  | none => { score := some 0, explanation := some "No README file found" }

/-- `license_presence`: return 100 with the first candidate found, else 0. -/
def license_presence (pathExists : String → Bool) : ResultDict :=
  match license_files.find? pathExists with
  | some f => { score := some 100, explanation := some ("Found " ++ f),
                evidence := some f }
  | none => { score := some 0, explanation := some "No license file found" }

/-- `script_length`: 100 when no Python file exceeds 500 lines, else
`max(0, 100 - 20 * count)` for `count` oversized files. -/
def script_length (lineCounts : List Nat) : ResultDict :=
  let long_files := lineCounts.filter (fun n => 500 < n)
  if long_files = [] then
    { score := some 100,
      explanation := some "All Python files are reasonably sized",
      evidence := some ("Checked " ++ toString lineCounts.length ++ " files") }
  else
    { score := some ((max 0 (100 - (long_files.length : Int) * 20) : Int) : Rat),
      explanation := some ("Found " ++ toString long_files.length ++
        " files exceeding 500 lines") }

/-- `repository_size`: thresholds on `size_mb = total_size / (1024 * 1024)`
(float division by a power of two is exact, so `Rat` is a faithful model). -/
def repository_size (total_size : Nat) : ResultDict :=
  if (total_size : Rat) / (1024 * 1024) < 100 then
    { score := some 100, explanation := some "Repository size is reasonable" }
  else if (total_size : Rat) / (1024 * 1024) < 500 then
    { score := some 70, explanation := some "Repository is large" }
  else
    { score := some 30, explanation := some "Repository is very large" }

/-- Modelled from the spec's words: presence checks score 100/0 binary. -/
def spec_presence_score (found : Bool) : Rat := if found then 100 else 0

/-- Modelled from the spec's words: size thresholds
`<100MB -> 100, <500MB -> 70, else 30`. -/
def spec_size_score (total_size : Nat) : Rat :=
  if total_size < 100 * 1024 * 1024 then 100
  else if total_size < 500 * 1024 * 1024 then 70
  else 30

/-- Modelled from the spec's words: oversized-file count penalty
`max(0, 100 - 20 * count)`. -/
def spec_oversize_score (count : Nat) : Rat := max 0 (100 - 20 * (count : Rat))

theorem size_mb_lt_100 (t : Nat) :
    ((t : Rat) / (1024 * 1024) < 100) ↔ t < 100 * 1024 * 1024 := by
  rw [div_lt_iff₀ (by norm_num)]
  constructor
  · intro h
    have h2 : (t : Rat) < ((100 * 1024 * 1024 : Nat) : Rat) := by push_cast; linarith
    exact_mod_cast h2
  · intro h
    have h2 : (t : Rat) < ((100 * 1024 * 1024 : Nat) : Rat) := by exact_mod_cast h
    push_cast at h2
    linarith

theorem size_mb_lt_500 (t : Nat) :
    ((t : Rat) / (1024 * 1024) < 500) ↔ t < 500 * 1024 * 1024 := by
  rw [div_lt_iff₀ (by norm_num)]
  constructor
  · intro h
    have h2 : (t : Rat) < ((500 * 1024 * 1024 : Nat) : Rat) := by push_cast; linarith
    exact_mod_cast h2
  · intro h
    have h2 : (t : Rat) < ((500 * 1024 * 1024 : Nat) : Rat) := by exact_mod_cast h
    push_cast at h2
    linarith

/-- Claim C7: the logic strategy's checks compute exactly the specified
formulas on every repository state: presence checks are 100/0 on whether any
candidate file name exists; repository size scores 100 below 100 MB, 70 below
500 MB and 30 otherwise; the oversized-file check scores
`max(0, 100 - 20 * count)` where `count` is the number of Python files
exceeding 500 lines. -/
theorem logic_checks_compute_spec_formulas :
    (∀ pathExists, (readme_presence pathExists).score =
      some (spec_presence_score (readme_files.any pathExists))) ∧
    (∀ pathExists, (license_presence pathExists).score =
      some (spec_presence_score (license_files.any pathExists))) ∧
    (∀ total_size, (repository_size total_size).score =
      some (spec_size_score total_size)) ∧
    (∀ lineCounts, (script_length lineCounts).score =
      some (spec_oversize_score ((lineCounts.filter (fun n => 500 < n)).length))) := by
  refine ⟨?_, ?_, ?_, ?_⟩
  · intro p
    cases hf : readme_files.find? p with
    | some f =>
      have hany : readme_files.any p = true :=
        List.any_eq_true.2 ⟨f, List.mem_of_find?_eq_some hf, List.find?_some hf⟩
      simp [readme_presence, hf, spec_presence_score, hany]
    | none =>
      have hany : readme_files.any p = false :=
        List.any_eq_false.2 (List.find?_eq_none.1 hf)
      simp [readme_presence, hf, spec_presence_score, hany]
  · intro p
    cases hf : license_files.find? p with
    | some f =>
      have hany : license_files.any p = true :=
        List.any_eq_true.2 ⟨f, List.mem_of_find?_eq_some hf, List.find?_some hf⟩
      simp [license_presence, hf, spec_presence_score, hany]
    | none =>
      have hany : license_files.any p = false :=
        List.any_eq_false.2 (List.find?_eq_none.1 hf)
      simp [license_presence, hf, spec_presence_score, hany]
  · intro t
    simp only [repository_size, spec_size_score,
      propext (size_mb_lt_100 t), propext (size_mb_lt_500 t)]
    split_ifs <;> rfl
  · intro ls
    simp only [script_length, spec_oversize_score]
    by_cases h : ls.filter (fun n => 500 < n) = []
    · rw [if_pos h, h]
      norm_num
    · rw [if_neg h]
      push_cast [Int.cast_max]
      rw [mul_comm]

/-! ## Orchestrator aggregation: RepositoryAnalyzer._aggregate_results
(src/core/analyzer.py lines 88-116)

```
all_results = {}
for assessment_type, type_results in results.items():
    all_results.update(type_results)
total_score = 0
total_criteria = 0
for criterion_id, result in all_results.items():
    if isinstance(result, dict) and "score" in result:
        total_score += result["score"]
        total_criteria += 1
overall_score = total_score / total_criteria if total_criteria > 0 else 0
```

Python dicts are modelled as insertion-ordered association lists:
`dict.update` overwrites an existing key in place and appends new keys in
order.  Every value placed in the merged mapping by the three scorers is one
of the dicts modelled by `ResultDict`, so `isinstance(result, dict)` is always
true and presence of the "score" key is `score = some _`. -/

/-- `d[k] = v` on an insertion-ordered dict (the effect of `update` for one
key/value pair). -/
def updateDict (d : List (String × ResultDict)) (kv : String × ResultDict) :
    List (String × ResultDict) :=
  if d.any (fun p => p.1 == kv.1) then
    d.map (fun p => if p.1 == kv.1 then kv else p)
  else
    d ++ [kv]

/-- The merge loop `all_results.update(type_results)` over all category
results, in category order. -/
def mergeAll (cats : List (List (String × ResultDict))) :
    List (String × ResultDict) :=
  cats.foldl (fun acc cat => cat.foldl updateDict acc) []

/-- The scores of the entries carrying a "score" key, in mapping order. -/
def scoresPresent (entries : List (String × ResultDict)) : List Rat :=
  entries.filterMap (fun p => p.2.score)

/-- Loop body of the `total_score`/`total_criteria` accumulation. -/
def tallyStep (acc : Rat × Nat) (p : String × ResultDict) : Rat × Nat :=
  match p.2.score with
  | some s => (acc.1 + s, acc.2 + 1)
  | none => acc

/-- The `total_score`/`total_criteria` accumulation loop. -/
def tallyScores (entries : List (String × ResultDict)) : Rat × Nat :=
  entries.foldl tallyStep (0, 0)

/-- `overall_score = total_score / total_criteria if total_criteria > 0 else 0`. -/
def overall_of (entries : List (String × ResultDict)) : Rat :=
  if 0 < (tallyScores entries).2 then
    (tallyScores entries).1 / ((tallyScores entries).2 : Rat)
  else 0

/-- The aggregate report returned by `_aggregate_results`. -/
structure Report where
  repository_url : String
  overall_score : Rat
  detailed_results : List (String × ResultDict)
  total_criteria : Nat
  average_score : Rat
deriving DecidableEq

/-- `_aggregate_results(results, repo_url)`. -/
def aggregate_results (results : List (String × List (String × ResultDict)))
    (repo_url : String) : Report :=
  let all_results := mergeAll (results.map Prod.snd)
  { repository_url := repo_url
    overall_score := overall_of all_results
    detailed_results := all_results
    total_criteria := (tallyScores all_results).2
    average_score := overall_of all_results }

theorem tally_foldl (entries : List (String × ResultDict)) :
    ∀ (t : Rat) (c : Nat),
      entries.foldl tallyStep (t, c) =
        (t + (scoresPresent entries).sum, c + (scoresPresent entries).length) := by
  induction entries with
  | nil => intro t c; simp [scoresPresent]
  | cons p rest ih =>
    intro t c
    cases hs : p.2.score with
    | some s =>
      rw [List.foldl_cons, show tallyStep (t, c) p = (t + s, c + 1) by
        simp [tallyStep, hs], ih]
      simp only [scoresPresent, List.filterMap_cons, hs, List.sum_cons,
        List.length_cons, Prod.mk.injEq]
      constructor
      · ring
      · omega
    | none =>
      rw [List.foldl_cons, show tallyStep (t, c) p = (t, c) by
        simp [tallyStep, hs], ih]
      simp only [scoresPresent, List.filterMap_cons, hs]

theorem tallyScores_eq (entries : List (String × ResultDict)) :
    tallyScores entries =
      ((scoresPresent entries).sum, (scoresPresent entries).length) := by
  rw [tallyScores, tally_foldl]
  simp

/-- Claim C5: the overall score is the arithmetic mean of every score present
in the merged criterion mapping — whenever at least one merged entry carries a
"score" key, `overall_score` is the sum of those scores divided by their
count, and entries without a "score" key contribute to neither numerator nor
denominator. -/
theorem aggregate_overall_is_mean
    (results : List (String × List (String × ResultDict))) (repo_url : String)
    (h : scoresPresent (mergeAll (results.map Prod.snd)) ≠ []) :
    (aggregate_results results repo_url).overall_score =
      (scoresPresent (mergeAll (results.map Prod.snd))).sum /
        ((scoresPresent (mergeAll (results.map Prod.snd))).length : Rat) := by
  have hlen : 0 < (scoresPresent (mergeAll (results.map Prod.snd))).length :=
    List.length_pos.2 h
  simp [aggregate_results, overall_of, tallyScores_eq, hlen]

/-- Witness for C5: two categories, two scored entries (100 and 80) and one
entry without a score; the overall score is their mean. -/
theorem aggregate_overall_is_mean_witness :
    (aggregate_results
        [("logic_based", [("readme_presence", { score := some 100 })]),
         ("content_based",
          [("a.py", { score := some 80 }), ("note", { explanation := some "n/a" })])]
        "https://repo").overall_score =
      (scoresPresent (mergeAll
          ([("logic_based", [("readme_presence", { score := some 100 })]),
            ("content_based",
             [("a.py", { score := some 80 }),
              ("note", { explanation := some "n/a" })])].map Prod.snd))).sum /
        ((scoresPresent (mergeAll
            ([("logic_based", [("readme_presence", { score := some 100 })]),
              ("content_based",
               [("a.py", { score := some 80 }),
                ("note", { explanation := some "n/a" })])].map Prod.snd))).length : Rat) :=
  aggregate_overall_is_mean _ _ (by decide)

/-- Claim C10's strictness part is false at a concrete input: when the only
other entry scores 0, appending a failure placeholder leaves the overall score
unchanged (0 with the placeholder counted, 0 with it excluded) — the failure
does not strictly lower the overall score. -/
theorem failure_placeholder_strictness_counterexample :
    overall_of [("a.py", { score := some 0 }), ("b.py", errorPlaceholder "boom")] =
      overall_of [("a.py", { score := some 0 })] ∧
    ¬ overall_of [("a.py", { score := some 0 }), ("b.py", errorPlaceholder "boom")] <
        overall_of [("a.py", { score := some 0 })] := by
  have e1 : overall_of [("a.py", { score := some 0 }), ("b.py", errorPlaceholder "boom")] = 0 := by
    simp [overall_of, tallyScores_eq, scoresPresent, errorPlaceholder, List.filterMap_cons]
  have e2 : overall_of [("a.py", { score := some 0 })] = 0 := by
    simp [overall_of, tallyScores_eq, scoresPresent, List.filterMap_cons]
  rw [e1, e2]
  exact ⟨rfl, lt_irrefl 0⟩

/-- Claim C10 amended: every unit- or category-boundary failure placeholder is
the dict `{"score": 0, "error": reason}`; appended to a merged mapping it is
counted as a zero in both numerator and denominator of the overall mean.
Hence (all present scores being nonnegative, as every scoring path produces)
the overall score never rises, and strictly falls exactly when the mean of the
other entries is positive. -/
theorem failure_placeholder_counted_as_zero
    (entries : List (String × ResultDict)) (k e : String)
    (hpos : ∀ s ∈ scoresPresent entries, 0 ≤ s)
    (hne : scoresPresent entries ≠ []) :
    (errorPlaceholder e).score = some 0 ∧
    scoresPresent (entries ++ [(k, errorPlaceholder e)]) =
      scoresPresent entries ++ [0] ∧
    overall_of (entries ++ [(k, errorPlaceholder e)]) ≤ overall_of entries ∧
    (0 < overall_of entries →
      overall_of (entries ++ [(k, errorPlaceholder e)]) < overall_of entries) := by
  have h2 : scoresPresent (entries ++ [(k, errorPlaceholder e)]) =
      scoresPresent entries ++ [0] := by
    simp [scoresPresent, errorPlaceholder]
  have hnpos : 0 < (scoresPresent entries).length := List.length_pos.2 hne
  have hq : (0 : Rat) < ((scoresPresent entries).length : Rat) := by
    exact_mod_cast hnpos
  have hSnn : 0 ≤ (scoresPresent entries).sum := List.sum_nonneg hpos
  have hov1 : overall_of entries =
      (scoresPresent entries).sum / ((scoresPresent entries).length : Rat) := by
    simp [overall_of, tallyScores_eq, hnpos]
  have hov2 : overall_of (entries ++ [(k, errorPlaceholder e)]) =
      (scoresPresent entries).sum / (((scoresPresent entries).length : Rat) + 1) := by
    rw [overall_of, tallyScores_eq, h2]
    simp only [List.sum_append, List.length_append, List.sum_cons,
      List.sum_nil, List.length_cons, List.length_nil, add_zero, Nat.zero_add]
    rw [if_pos (Nat.succ_pos _)]
    push_cast
    ring_nf
  refine ⟨rfl, h2, ?_, ?_⟩
  · rw [hov1, hov2, div_le_div_iff₀ (by linarith) hq]
    have := mul_le_mul_of_nonneg_left
      (by linarith : ((scoresPresent entries).length : Rat) ≤
        ((scoresPresent entries).length : Rat) + 1) hSnn
    linarith
  · intro hlt
    rw [hov1] at hlt
    have hmul := mul_pos hlt hq
    rw [div_mul_cancel₀ _ (ne_of_gt hq)] at hmul
    rw [hov1, hov2, div_lt_div_iff₀ (by linarith) hq]
    have := mul_lt_mul_of_pos_left
      (by linarith : ((scoresPresent entries).length : Rat) <
        ((scoresPresent entries).length : Rat) + 1) hmul
    linarith

/-- Witness for the amended C10: one entry scoring 80 plus a failure
placeholder — the overall score strictly drops. -/
theorem failure_placeholder_counted_as_zero_witness :
    overall_of [("a.py", { score := some 80 }), ("b.py", errorPlaceholder "boom")] <
      overall_of [("a.py", { score := some 80 })] :=
  (failure_placeholder_counted_as_zero [("a.py", { score := some 80 })] "b.py" "boom"
      (by intro s hs; simp [scoresPresent] at hs; simp [hs])
      (by simp [scoresPresent])).2.2.2
    (by
      have h80 : overall_of [("a.py", { score := some 80 })] = 80 := by
        simp [overall_of, tallyScores_eq, scoresPresent, List.filterMap_cons]
      rw [h80]
      norm_num)

/-! ## Orchestrator: RepositoryAnalyzer.assess_repository
(src/core/analyzer.py lines 45-71)

```
with ThreadPoolExecutor(max_workers=...) as executor:
    logic_future = executor.submit(self._run_logic_based_assessment, repo_path)
    content_future = executor.submit(self._run_content_based_assessment, repo_path)
    metadata_future = executor.submit(self._run_metadata_based_assessment, repo_path)
    results["logic_based"] = logic_future.result()
    results["content_based"] = content_future.result()
    results["metadata_based"] = metadata_future.result()
final_results = self._aggregate_results(results, repo_url)
```

Each category runner's top-level execution is abstracted as an
`Except String CategoryResult` value (`Except.error` = the runner raised).
`Future.result()` re-raises the stored exception, and there is no
`try`/`except` around these three calls, so the first raising runner (in
collection order logic, content, metadata) propagates out of
`assess_repository`. -/

/-- The result-collection and aggregation phase of `assess_repository`:
`Except.error` = the orchestrator call itself raises with that message and
produces no report. -/
def analyzer_assess (logic content metadata : Except String (List (String × ResultDict)))
    (repo_url : String) : Except String Report :=
  match logic with
  | .error e => .error e
  | .ok l =>
    match content with
    | .error e => .error e
    | .ok c =>
      match metadata with
      | .error e => .error e
      | .ok m =>
        .ok (aggregate_results
          [("logic_based", l), ("content_based", c), ("metadata_based", m)] repo_url)

/-- Claim C3 is false on the code: with the logic and metadata runners
succeeding and the content runner raising, `assess_repository` re-raises the
content runner's exception at `content_future.result()` — the orchestration
aborts with that error and no AggregateReport containing the other two
categories' results (or any category-level placeholder) is produced. -/
theorem category_failure_aborts_orchestration :
    analyzer_assess
        (.ok [("readme_presence", { score := some 100 })])
        (.error "content runner crashed")
        (.ok [("metadata_assessment", { score := some 90 })])
        "https://repo" =
      .error "content runner crashed" := rfl

/-- Claim C3 amended: a category runner that raises in its top-level execution
makes the whole orchestration raise — the first failing runner's error (in
collection order logic, content, metadata) propagates and no report is
produced, discarding the other categories' results. -/
theorem analyzer_assess_propagates_category_error (e : String) (repo_url : String)
    (lc cc : List (String × ResultDict))
    (content metadata : Except String (List (String × ResultDict))) :
    analyzer_assess (.error e) content metadata repo_url = .error e ∧
    analyzer_assess (.ok lc) (.error e) metadata repo_url = .error e ∧
    analyzer_assess (.ok lc) (.ok cc) (.error e) repo_url = .error e :=
  ⟨rfl, rfl, rfl⟩

/-! ## Claim C6: score bounds across all scoring paths -/

/-- Every response in a successfully completed per-chunk loop came from some
oracle call. -/
theorem runChunks_ok_mem (oracle : Nat → Except String CriterionResponse) :
    ∀ (chunks : List String) (i : Nat) (rs : List CriterionResponse) (c : Nat),
      runChunks oracle chunks i = (.ok rs, c) → ∀ r ∈ rs, ∃ j, oracle j = .ok r := by
  intro chunks
  induction chunks with
  | nil =>
    intro i rs c h r hr
    rw [runChunks] at h
    simp only [Prod.mk.injEq, Except.ok.injEq] at h
    rcases h with ⟨h1, _⟩
    subst h1
    cases hr
  | cons ch rest ih =>
    intro i rs c h r hr
    rw [runChunks] at h
    cases ho : oracle i with
    | error e =>
      rw [ho] at h
      simp at h
    | ok r0 =>
      rw [ho] at h
      rcases h2 : runChunks oracle rest (i + 1) with ⟨res, cnt⟩
      rw [h2] at h
      cases res with
      | error e => simp at h
      | ok rs0 =>
        simp only [Prod.mk.injEq, Except.ok.injEq] at h
        rcases h with ⟨h3, _⟩
        subst h3
        rcases List.mem_cons.1 hr with h5 | h6
        · exact ⟨i, by rw [ho, h5]⟩
        · exact ih (i + 1) rs0 cnt h2 r h6

/-- The arithmetic mean of a non-empty list of values in [0, 100] lies in
[0, 100]. -/
theorem mean_bounds (l : List Rat) (h : ∀ x ∈ l, 0 ≤ x ∧ x ≤ 100) (hne : l ≠ []) :
    0 ≤ l.sum / (l.length : Rat) ∧ l.sum / (l.length : Rat) ≤ 100 := by
  have hlen : 0 < l.length := List.length_pos.2 hne
  have hq : (0 : Rat) < (l.length : Rat) := by exact_mod_cast hlen
  have hsnn : 0 ≤ l.sum := List.sum_nonneg (fun x hx => (h x hx).1)
  have hsub : l.sum ≤ (l.length : Rat) * 100 := by
    have := List.sum_le_card_nsmul l 100 (fun x hx => (h x hx).2)
    simpa [nsmul_eq_mul] using this
  constructor
  · exact div_nonneg hsnn (le_of_lt hq)
  · rw [div_le_iff₀ hq]
    linarith

/-- Claim C6: every score produced by any scoring path lies in [0, 100]:
(1) pydantic schema validation only accepts integer scores in [0, 100];
(2-5) each logic check's score is in [0, 100]; (6) every unit entry — the
empty-file result, the mean over successfully scored chunks, or the failure
placeholder — has a score in [0, 100], given that every successful oracle
response carries a validated score in [0, 100]. -/
theorem criterion_scores_in_range :
    (∀ cid sc ex ev su r,
      validateCriterionResponse cid sc ex ev su = some r →
        0 ≤ r.score ∧ r.score ≤ 100) ∧
    (∀ pathExists s, (readme_presence pathExists).score = some s →
        0 ≤ s ∧ s ≤ 100) ∧
    (∀ pathExists s, (license_presence pathExists).score = some s →
        0 ≤ s ∧ s ≤ 100) ∧
    (∀ lineCounts s, (script_length lineCounts).score = some s →
        0 ≤ s ∧ s ≤ 100) ∧
    (∀ total_size s, (repository_size total_size).score = some s →
        0 ≤ s ∧ s ≤ 100) ∧
    (∀ chunker oracle fp content s,
      (∀ i r, oracle i = Except.ok r → 0 ≤ r.score ∧ r.score ≤ 100) →
      (assessFileEntry chunker oracle fp content).score = some s →
        0 ≤ s ∧ s ≤ 100) := by
  refine ⟨?_, ?_, ?_, ?_, ?_, ?_⟩
  · intro cid sc ex ev su r h
    rw [validateCriterionResponse] at h
    split_ifs at h with hc
    · injection h with h2
      subst h2
      simpa using hc
  · intro p s h
    rw [readme_presence] at h
    cases hf : readme_files.find? p with
    | some f =>
      rw [hf] at h
      simp only [Option.some.injEq] at h
      subst h
      norm_num
    | none =>
      rw [hf] at h
      simp only [Option.some.injEq] at h
      subst h
      norm_num
  · intro p s h
    rw [license_presence] at h
    cases hf : license_files.find? p with
    | some f =>
      rw [hf] at h
      simp only [Option.some.injEq] at h
      subst h
      norm_num
    | none =>
      rw [hf] at h
      simp only [Option.some.injEq] at h
      subst h
      norm_num
  · intro ls s h
    simp only [script_length] at h
    by_cases hl : ls.filter (fun n => 500 < n) = []
    · rw [if_pos hl] at h
      simp only [Option.some.injEq] at h
      subst h
      norm_num
    · rw [if_neg hl] at h
      simp only [Option.some.injEq] at h
      subst h
      constructor
      · have h0 : (0 : Int) ≤
            max 0 (100 - ((ls.filter (fun n => 500 < n)).length : Int) * 20) :=
          le_max_left _ _
        exact_mod_cast h0
      · have h0 : max 0 (100 - ((ls.filter (fun n => 500 < n)).length : Int) * 20) ≤
            100 := max_le (by norm_num) (by omega)
        exact_mod_cast h0
  · intro t s h
    rw [repository_size] at h
    split_ifs at h <;>
      (simp only [Option.some.injEq] at h; subst h; norm_num)
  · intro chunker oracle fp content s hyp h
    by_cases hb : pyStrip content = ""
    · simp only [assessFileEntry, assessFile, if_pos hb] at h
      simp only [Option.some.injEq] at h
      subst h
      norm_num
    · rcases hrc : runChunks oracle (chunker content) 0 with ⟨res, cnt⟩
      cases res with
      | error e =>
        simp only [assessFileEntry, assessFile, if_neg hb, hrc, errorPlaceholder] at h
        simp only [Option.some.injEq] at h
        subst h
        norm_num
      | ok rs =>
        simp only [assessFileEntry, assessFile, if_neg hb, hrc] at h
        by_cases hrs : rs = []
        · subst hrs
          simp only [List.map_nil, if_pos rfl, Option.some.injEq] at h
          subst h
          norm_num
        · have hm : rs.map (fun r => (r.score : Rat)) ≠ [] := by
            simpa [List.map_eq_nil_iff] using hrs
          rw [if_neg hm] at h
          simp only [Option.some.injEq] at h
          subst h
          have hbound : ∀ x ∈ rs.map (fun r => (r.score : Rat)), 0 ≤ x ∧ x ≤ 100 := by
            intro x hx
            rcases List.mem_map.1 hx with ⟨r, hrmem, rfl⟩
            rcases runChunks_ok_mem oracle (chunker content) 0 rs cnt hrc r hrmem
              with ⟨j, hj⟩
            rcases hyp j r hj with ⟨hx1, hx2⟩
            exact ⟨by exact_mod_cast hx1, by exact_mod_cast hx2⟩
          exact mean_bounds _ hbound hm

/-- Witness for C6: a validated response with score 55 is in range, and a
concrete whitespace-only unit entry has score 0, which is in range. -/
theorem criterion_scores_in_range_witness :
    (0 ≤ (⟨"content_quality", 55, "ok", none, none⟩ : CriterionResponse).score ∧
      (⟨"content_quality", 55, "ok", none, none⟩ : CriterionResponse).score ≤ 100) ∧
    (0 ≤ (0 : Rat) ∧ (0 : Rat) ≤ 100) :=
  ⟨criterion_scores_in_range.1 "content_quality" 55 "ok" none none _ rfl,
   criterion_scores_in_range.2.2.2.2.2 (fun s => [s]) (fun _ => .error "down")
     "f.py" " " 0 (fun _ _ hr => Except.noConfusion hr) rfl⟩
